import Mathlib

/-!
Shallow embedding of `scripts/fetch_data.py` (Aave Whale Watch data fetcher).

Numeric values are modelled as rationals (`ℚ`): the script manipulates
JSON numbers parsed with `float`/`int`, and every claim under study is about
the exact arithmetic the source spells out, not about binary rounding.
A JSON field that may be absent or unusable is modelled by `RawField`:
`missing` is an absent key (Python `.get` then yields the default),
`malformed` is a present value whose conversion (`float`, `int`, `.get` on a
non-dict) raises, and `val` is a usable value.  A raised exception inside
the per-user `try` is modelled by `Option.none` propagation.
-/

/-- Modelled after Python floats only so far as the script needs them: the
health-factor computation can return `float` infinity (`float` of a quotient
otherwise).  Finite values stay exact rationals. -/
inductive PyFloat where
  | finite (q : ℚ)
  | inf
deriving DecidableEq

/-- State of one JSON field: absent key, present but unusable value
(conversion raises), or a usable value. -/
inductive RawField (α : Type) where
  | missing
  | malformed
  | val (a : α)
deriving DecidableEq

/-- Python `convert(d.get(key, default))`: an absent key yields the default,
an unusable value raises (maps to `none`), a usable value is returned. -/
def parseField {α : Type} (f : RawField α) (dflt : α) : Option α :=
  match f with
  | .missing => some dflt
  | .malformed => none
  | .val a => some a

/-- The nested `price` object of a reserve (`{ priceInEth }`). -/
structure RawPrice where
  priceInEth : RawField ℚ
deriving DecidableEq

/-- The nested `reserve` metadata object of one user reserve entry. -/
structure RawReserveInfo where
  symbol : RawField String
  decimals : RawField ℤ
  price : RawField RawPrice
  reserveLiquidationThreshold : RawField ℚ
deriving DecidableEq

/-- One entry of a user's `reserves` list as returned by the subgraph. -/
structure RawReserve where
  currentATokenBalance : RawField ℚ
  currentTotalDebt : RawField ℚ
  reserve : RawField RawReserveInfo
deriving DecidableEq

/-- One raw `users` entry as returned by the subgraph. -/
structure RawUser where
  id : RawField String
  reserves : RawField (List RawReserve)
deriving DecidableEq

def unknownSymbol : String := "Unknown"

/-- Decoded per-reserve quantities, after the field conversions of
`process_user_data` lines 156-179: symbol, price in ETH (already divided by
1e18), liquidation threshold (already divided by 10000), aToken balance and
total debt (already divided by `10 ** decimals`). -/
structure ReserveData where
  symbol : String
  priceInEth : ℚ
  liqThreshold : ℚ
  atokenBalance : ℚ
  totalDebt : ℚ
deriving DecidableEq

/-- Field extraction and unit conversion for one reserve entry
(`process_user_data` lines 155-179).  `reserve.get('reserve', {})` turns an
absent metadata object into one whose every key is absent; any conversion
that raises aborts the whole user (propagates `none`). -/
def processReserve (r : RawReserve) : Option ReserveData := do
  let info ← match r.reserve with
    | .missing => some (RawReserveInfo.mk .missing .missing .missing .missing)
    | .malformed => none
    | .val i => some i
  let symbol ← parseField info.symbol unknownSymbol
  let decimals ← parseField info.decimals 18
  let priceRaw ← match info.price with
    | .missing => some (0 : ℚ)
    | .malformed => none
    | .val p => parseField p.priceInEth 0
  let priceInEth := priceRaw / 10 ^ 18
  let liqRaw ← parseField info.reserveLiquidationThreshold 0
  let liqThreshold := liqRaw / 10000
  let atokenRaw ← parseField r.currentATokenBalance 0
  let atokenBalance := atokenRaw / (10 : ℚ) ^ decimals
  let debtRaw ← parseField r.currentTotalDebt 0
  let totalDebt := debtRaw / (10 : ℚ) ^ decimals
  pure (ReserveData.mk symbol priceInEth liqThreshold atokenBalance totalDebt)

/-- One element of the `collateral_assets` list built per user. -/
structure CollateralAsset where
  symbol : String
  amount : ℚ
  valueEth : ℚ
  valueUsd : ℚ
  liqThreshold : ℚ
deriving DecidableEq

/-- One element of the `borrow_assets` list built per user. -/
structure BorrowAsset where
  symbol : String
  amount : ℚ
  valueEth : ℚ
  valueUsd : ℚ
deriving DecidableEq

/-- The running accumulators of the reserve loop in `process_user_data`:
`total_collateral_eth`, `total_debt_eth`, `weighted_liq_threshold`,
`collateral_assets`, `borrow_assets`. -/
structure Totals where
  totalCollateralEth : ℚ
  totalDebtEth : ℚ
  weightedLiqThreshold : ℚ
  collateralAssets : List CollateralAsset
  borrowAssets : List BorrowAsset
deriving DecidableEq

/-- Accumulator state before the loop body runs (lines 148-153). -/
def emptyTotals : Totals := Totals.mk 0 0 0 [] []

/-- One iteration of the reserve loop (lines 155-188): decode the reserve,
add its collateral contribution when `collateral_eth > 0`, then its debt
contribution when `debt_eth > 0`. -/
def stepReserve (ethPrice : ℚ) (acc : Totals) (r : RawReserve) : Option Totals := do
  let d ← processReserve r
  let collateralEth := d.atokenBalance * d.priceInEth
  let acc1 :=
    if collateralEth > 0 then
      { acc with
          collateralAssets := acc.collateralAssets ++
            [CollateralAsset.mk d.symbol d.atokenBalance collateralEth
              (collateralEth * ethPrice) d.liqThreshold],
          totalCollateralEth := acc.totalCollateralEth + collateralEth,
          weightedLiqThreshold := acc.weightedLiqThreshold + collateralEth * d.liqThreshold }
    else acc
  let debtEth := d.totalDebt * d.priceInEth
  let acc2 :=
    if debtEth > 0 then
      { acc1 with
          borrowAssets := acc1.borrowAssets ++
            [BorrowAsset.mk d.symbol d.totalDebt debtEth (debtEth * ethPrice)],
          totalDebtEth := acc1.totalDebtEth + debtEth }
    else acc1
  pure acc2

/-- The whole reserve loop over a user's reserves list. -/
def aggregate (ethPrice : ℚ) (rs : List RawReserve) : Option Totals :=
  rs.foldlM (stepReserve ethPrice) emptyTotals

/-- The source's `calculate_health_factor` (lines 131-138):
`float('inf')` on zero debt, otherwise `(collateral * liq_threshold) / debt`. -/
def calculate_health_factor (collateralEth debtEth liqThreshold : ℚ) : PyFloat :=
  if debtEth = 0 then .inf
  else .finite ((collateralEth * liqThreshold) / debtEth)

/-- Python `x > m` on a possibly-infinite float, as used by the filter at
line 205 (`float('inf') > 1.5` is `True`). -/
def PyFloat.gtRat (x : PyFloat) (m : ℚ) : Bool :=
  match x with
  | .inf => true
  | .finite q => q > m

/-- The average liquidation threshold of line 195:
`weighted / total if total > 0 else 0.8`. -/
def avgLiq (t : Totals) : ℚ :=
  if t.totalCollateralEth > 0 then t.weightedLiqThreshold / t.totalCollateralEth
  else 8 / 10

/-- Round-half-to-even of a rational to an integer, the tie rule of Python 3
`round`. -/
def roundHalfEven (x : ℚ) : ℤ :=
  let f := Rat.floor x
  let r := x - f
  if r < 1 / 2 then f
  else if r > 1 / 2 then f + 1
  else if f % 2 = 0 then f else f + 1

/-- Python `round(x, n)` on our exact-rational model of the float values. -/
def pyRound (x : ℚ) (n : ℕ) : ℚ :=
  (roundHalfEven (x * 10 ^ n) : ℚ) / 10 ^ n

/-- Python `max(xs, key=key)` for a nonempty list: the first element among
those of maximal key (a later element replaces the running best only when
strictly greater). -/
def pyMaxBy {α : Type} (key : α → ℚ) : List α → Option α
  | [] => none
  | x :: xs => some (xs.foldl (fun best y => if key y > key best then y else best) x)

/-- Constants `MAX_HEALTH_FACTOR = 1.5` and `MIN_COLLATERAL_USD = 200000`
(lines 29-30). -/
def MAX_HEALTH_FACTOR : ℚ := 3 / 2

def MIN_COLLATERAL_USD : ℚ := 200000

/-- One output position record (the dict appended at lines 219-230). -/
structure Position where
  address : String
  healthFactor : ℚ
  collateralValue : ℚ
  collateralAmount : ℚ
  collateralAsset : String
  borrowValue : ℚ
  borrowAsset : String
  liquidationThreshold : ℚ
  collateralAssets : List CollateralAsset
  borrowAssets : List BorrowAsset
deriving DecidableEq

/-- The body of the user loop of `process_user_data` (lines 145-234) for one
user: `none` models both a raised-and-caught exception and a `continue`
(either way the user contributes no position). -/
def processOne (ethPrice : ℚ) (u : RawUser) : Option Position := do
  let rs ← match u.reserves with
    | .missing => some ([] : List RawReserve)
    | .malformed => none
    | .val l => some l
  let t ← aggregate ethPrice rs
  if t.totalDebtEth = 0 then none
  else
    let liqAvg := avgLiq t
    match calculate_health_factor t.totalCollateralEth t.totalDebtEth liqAvg with
    | .inf => none
    | .finite healthFactor =>
      let collateralUsd := t.totalCollateralEth * ethPrice
      let debtUsd := t.totalDebtEth * ethPrice
      if healthFactor > MAX_HEALTH_FACTOR then none
      else if collateralUsd < MIN_COLLATERAL_USD then none
      else
        let primaryCollateral := match pyMaxBy (fun a => a.valueUsd) t.collateralAssets with
          | some a => a.symbol
          | none => unknownSymbol
        let primaryBorrow := match pyMaxBy (fun a => a.valueUsd) t.borrowAssets with
          | some a => a.symbol
          | none => unknownSymbol
        let collateralAmount := match pyMaxBy (fun a => a.valueUsd) t.collateralAssets with
          | some a => a.amount
          | none => 0
        let liqThreshold := match pyMaxBy (fun a => a.valueUsd) t.collateralAssets with
          | some a => a.liqThreshold
          | none => 8 / 10
        let addr ← match u.id with
          | .val s => some s
          | _ => none
        pure (Position.mk addr (pyRound healthFactor 4) (pyRound collateralUsd 2)
          (pyRound collateralAmount 6) primaryCollateral (pyRound debtUsd 2)
          primaryBorrow (pyRound liqThreshold 4) t.collateralAssets t.borrowAssets)

/-- The source's `process_user_data` (lines 141-236): loop over users,
appending each produced position; exceptions for one user are caught and the
loop continues. -/
def process_user_data (users : List RawUser) (ethPrice : ℚ) : List Position :=
  users.foldl
    (fun positions u =>
      match processOne ethPrice u with
      | some p => positions ++ [p]
      | none => positions)
    []

/-- Outcome of the CoinGecko price request (lines 243-247): an exception, a
reply whose `ethereum` key is absent (`.get` then reads from `{}`), or a
reply with an optional `usd` value. -/
inductive PriceFetchOutcome where
  | error
  | okMissingEthereum
  | ok (usd : Option ℚ)
deriving DecidableEq

/-- The source's `fetch_eth_price` (lines 239-250) as a function of the
request outcome: any failure path returns the static fallback 3000. -/
def fetch_eth_price (o : PriceFetchOutcome) : ℚ :=
  match o with
  | .error => 3000
  | .okMissingEthereum => 3000
  | .ok none => 3000
  | .ok (some v) => v

/-- The `data` part of a successful subgraph reply as `fetch_chain_data`
reads it: the `users` list and the optional `_meta.block.number`. -/
structure GraphQLData where
  users : List RawUser
  blockNumber : Option ℤ
deriving DecidableEq

/-- Metadata of one chain document.  An `Option` field set to `none` models
the key being absent from the emitted JSON object: the failure document of
lines 265-272 carries only `chain`, `error` and a timestamp, while the
success document of lines 283-298 carries the full set and no `error` key.
The wall-clock `timestamp` string is not modelled. -/
structure ChainMeta where
  chain : String
  error : Option String
  blockNumber : Option (Option ℤ)
  ethPriceUsd : Option ℚ
  maxHealthFactor : Option ℚ
  minCollateralUsd : Option ℚ
  totalPositions : Option ℕ
  totalCollateralUsd : Option ℚ
  totalBorrowUsd : Option ℚ
deriving DecidableEq

/-- One per-chain output document (`positions` plus `meta`). -/
structure ChainDoc where
  positions : List Position
  meta : ChainMeta
deriving DecidableEq

def fetchFailureMessage : String := "Failed to fetch data"

/-- Outcome of one chain's GraphQL request as `fetch_chain_data` (lines
253-274) distinguishes it.  `failed` covers `fetch_graphql` returning
`None` (any transport error), a falsy reply, or a reply without a `data`
key: all are caught by the guard `not result or 'data' not in result` at
line 261 and yield the error document.  `malformedData` is a reply whose
`data` key is present but null or not a dict (the standard GraphQL error
envelope `data: null` plus `errors`): it passes the line-261 guard and then
`result['data'].get(...)` at line 274 raises an uncaught `AttributeError`.
`ok` is a usable `data` object. -/
inductive GraphQLReply where
  | failed
  | malformedData
  | ok (d : GraphQLData)
deriving DecidableEq

/-- The error document of lines 265-272: empty positions, explicit error
marker, no price or threshold metadata. -/
def errorDoc (chain : String) : ChainDoc :=
  ChainDoc.mk []
    (ChainMeta.mk chain (some fetchFailureMessage) none none none none none none none)

/-- The success document of lines 283-298. -/
def successDoc (chain : String) (d : GraphQLData) (ethPrice : ℚ) : ChainDoc :=
  let positions := process_user_data d.users ethPrice
  ChainDoc.mk positions
    (ChainMeta.mk chain none (some d.blockNumber) (some ethPrice)
      (some MAX_HEALTH_FACTOR) (some MIN_COLLATERAL_USD)
      (some positions.length)
      (some (positions.map (fun p => p.collateralValue)).sum)
      (some (positions.map (fun p => p.borrowValue)).sum))

/-- The source's `fetch_chain_data` (lines 253-298) as a function of the
GraphQL outcome.  A handled failure yields the error document and a usable
reply the success document; a reply whose `data` key is present but
null/non-dict raises an uncaught exception at line 274, modelled as
`Except.error`. -/
def fetch_chain_data (chain : String) (reply : GraphQLReply) (ethPrice : ℚ) :
    Except Unit ChainDoc :=
  match reply with
  | .failed => Except.ok (errorDoc chain)
  | .malformedData => Except.error ()
  | .ok d => Except.ok (successDoc chain d ethPrice)

def ethereumChain : String := "ethereum"

def arbitrumChain : String := "arbitrum"

def polygonChain : String := "polygon"

def baseChain : String := "base"

/-- Iteration order of `SUBGRAPH_IDS` in `main` (Python dicts preserve
insertion order). -/
def SUBGRAPH_CHAINS : List String :=
  [ethereumChain, arbitrumChain, polygonChain, baseChain]

/-- The per-chain loop of `main` (lines 329-337) over an explicit chain
list: each chain's document is computed from its own fetch outcome and
written before the next chain is visited, but an uncaught exception inside
`fetch_chain_data` propagates out of `main`, so the offending chain and
every chain after it produce no document. -/
def runChains (replies : String → GraphQLReply) (ethPrice : ℚ) :
    List String → List (String × ChainDoc)
  | [] => []
  | c :: cs =>
      match fetch_chain_data c (replies c) ethPrice with
      | Except.error _ => []
      | Except.ok doc => (c, doc) :: runChains replies ethPrice cs

/-- The documents the whole run writes, one per chain visited before any
uncaught exception. -/
def runAll (replies : String → GraphQLReply) (ethPrice : ℚ) :
    List (String × ChainDoc) :=
  runChains replies ethPrice SUBGRAPH_CHAINS

/-- Sum of `value_i * threshold_i` over a collateral-asset list, the
numerator of the specified weighted average. -/
def collateralWeightedSum (l : List CollateralAsset) : ℚ :=
  (l.map (fun a => a.valueEth * a.liqThreshold)).sum

/-- Sum of `value_i` over a collateral-asset list, the denominator of the
specified weighted average. -/
def collateralValueSum (l : List CollateralAsset) : ℚ :=
  (l.map (fun a => a.valueEth)).sum

/-- Loop invariant: the running `weighted_liq_threshold` and
`total_collateral_eth` are exactly the sums over the collateral-asset list
built so far. -/
def totalsSumInvariant (t : Totals) : Prop :=
  t.weightedLiqThreshold = collateralWeightedSum t.collateralAssets ∧
  t.totalCollateralEth = collateralValueSum t.collateralAssets

/-!
Concrete inputs used by the witness and counterexample theorems.
-/

/-- Reserve metadata with `decimals = 0`, price `1e18` raw (one ETH), and a
given raw liquidation threshold in basis points. -/
def simpleInfo (thrRaw : ℚ) : RawReserveInfo :=
  RawReserveInfo.mk (RawField.val unknownSymbol) (RawField.val 0)
    (RawField.val (RawPrice.mk (RawField.val (10 ^ 18)))) (RawField.val thrRaw)

/-- A well-formed reserve entry with the given balance, debt and threshold. -/
def simpleReserve (bal debt thrRaw : ℚ) : RawReserve :=
  RawReserve.mk (RawField.val bal) (RawField.val debt) (RawField.val (simpleInfo thrRaw))

def addrA : String := "0xa1"

def addrB : String := "0xb2"

def addrC : String := "0xc3"

def addrD : String := "0xd4"

def addrE : String := "0xe5"

/-- Qualifying borrower with health factor `4/3`: 100 ETH collateral at
threshold 0.8, 60 ETH debt. -/
def userA : RawUser :=
  RawUser.mk (RawField.val addrA) (RawField.val [simpleReserve 100 60 8000])

/-- Qualifying borrower with health factor `1`: 100 ETH collateral at
threshold 0.8, 80 ETH debt. -/
def userB : RawUser :=
  RawUser.mk (RawField.val addrB) (RawField.val [simpleReserve 100 80 8000])

/-- Borrower sitting exactly at both thresholds with ETH price 3000:
collateral `200/3` ETH (200000 USD), debt `320/9` ETH, health factor 1.5. -/
def userBoundary : RawUser :=
  RawUser.mk (RawField.val addrC) (RawField.val [simpleReserve (200 / 3) (320 / 9) 8000])

/-- Totals reached by the loop on `userBoundary` at ETH price 3000. -/
def tBoundary : Totals :=
  Totals.mk (200 / 3) (320 / 9) (160 / 3)
    [CollateralAsset.mk unknownSymbol (200 / 3) (200 / 3) 200000 (4 / 5)]
    [BorrowAsset.mk unknownSymbol (320 / 9) (320 / 9) (320000 / 3)]

/-- Borrower with large collateral and zero debt. -/
def userZeroDebt : RawUser :=
  RawUser.mk (RawField.val addrD) (RawField.val [simpleReserve 100 0 8000])

/-- Two equal-value collateral assets with thresholds 0.80 and 0.85. -/
def rsEqual : List RawReserve :=
  [simpleReserve 100 1 8000, simpleReserve 100 0 8500]

/-- Totals reached by the loop on `rsEqual` at ETH price 3000. -/
def tEqual : Totals :=
  Totals.mk 200 1 165
    [CollateralAsset.mk unknownSymbol 100 100 300000 (4 / 5),
     CollateralAsset.mk unknownSymbol 100 100 300000 (17 / 20)]
    [BorrowAsset.mk unknownSymbol 1 1 3000]

/-- Mixed-collateral borrower: 200 ETH at threshold 0.8 plus 100 ETH at
threshold 0.5, 200 ETH debt on the second reserve. -/
def rsMixed : List RawReserve :=
  [simpleReserve 200 0 8000, simpleReserve 100 200 5000]

def userMixed : RawUser :=
  RawUser.mk (RawField.val addrE) (RawField.val rsMixed)

/-- Totals reached by the loop on `rsMixed` at ETH price 3000. -/
def tMixed : Totals :=
  Totals.mk 300 200 210
    [CollateralAsset.mk unknownSymbol 200 200 600000 (4 / 5),
     CollateralAsset.mk unknownSymbol 100 100 300000 (1 / 2)]
    [BorrowAsset.mk unknownSymbol 200 200 600000]

/-- The position emitted for `userMixed` at ETH price 3000. -/
def posMixed : Position :=
  Position.mk addrE (21 / 20) 900000 200 unknownSymbol 600000 unknownSymbol (4 / 5)
    tMixed.collateralAssets tMixed.borrowAssets

def addrBad : String := "0xbad"

/-- Reserve entry whose nested `reserve` value is unusable: decoding it
raises inside the per-user `try`. -/
def badReserve : RawReserve :=
  RawReserve.mk (RawField.val 1) (RawField.val 1) RawField.malformed

def badUser : RawUser :=
  RawUser.mk (RawField.val addrBad) (RawField.val [badReserve])

def addrZ : String := "0xz6"

/-- Reserve metadata without any `price` object. -/
def infoNoPrice : RawReserveInfo :=
  RawReserveInfo.mk (RawField.val unknownSymbol) (RawField.val 6) RawField.missing
    (RawField.val 8000)

/-- Reserve with huge raw balances but no price: both values collapse to 0. -/
def rNoPrice : RawReserve :=
  RawReserve.mk (RawField.val 1000000) (RawField.val 500000) (RawField.val infoNoPrice)

/-- What `rNoPrice` decodes to. -/
def dNoPrice : ReserveData :=
  ReserveData.mk unknownSymbol 0 (4 / 5) 1 (1 / 2)

def userNoPrice : RawUser :=
  RawUser.mk (RawField.val addrZ) (RawField.val [rNoPrice])

/-- Reply assignment where only the first chain's fetch fails. -/
def repliesOneFailure : String → GraphQLReply :=
  fun c =>
    if c = ethereumChain then GraphQLReply.failed
    else GraphQLReply.ok (GraphQLData.mk [] none)

/-- Reply assignment where the second chain returns the malformed
`data: null` envelope and every other chain succeeds. -/
def repliesOneMalformed : String → GraphQLReply :=
  fun c =>
    if c = arbitrumChain then GraphQLReply.malformedData
    else GraphQLReply.ok (GraphQLData.mk [] none)

/-- A successful reply carrying no users. -/
def emptyData : GraphQLData := GraphQLData.mk [] none

/-- Collateral-asset record produced for a 100 ETH balance at threshold 0.8
and ETH price 3000. -/
def caHundred : CollateralAsset := CollateralAsset.mk unknownSymbol 100 100 300000 (4 / 5)

def baSixty : BorrowAsset := BorrowAsset.mk unknownSymbol 60 60 180000

def baEighty : BorrowAsset := BorrowAsset.mk unknownSymbol 80 80 240000

/-- Totals reached by the loop on `userA` at ETH price 3000. -/
def tA : Totals := Totals.mk 100 60 80 [caHundred] [baSixty]

/-- Totals reached by the loop on `userB` at ETH price 3000. -/
def tB : Totals := Totals.mk 100 80 80 [caHundred] [baEighty]

/-- The position emitted for `userA` at ETH price 3000: raw health factor
`4/3`, persisted as its 4-place rounding `1.3333`. -/
def posA : Position :=
  Position.mk addrA (13333 / 10000) 300000 100 unknownSymbol 180000 unknownSymbol (4 / 5)
    [caHundred] [baSixty]

/-- The position emitted for `userB` at ETH price 3000: health factor 1. -/
def posB : Position :=
  Position.mk addrB 1 300000 100 unknownSymbol 240000 unknownSymbol (4 / 5)
    [caHundred] [baEighty]

/-- Totals reached by the loop on `userZeroDebt`: no debt contribution. -/
def tZeroDebt : Totals := Totals.mk 100 0 80 [caHundred] []

def addrF : String := "0xf7"

/-- Borrower just over the health-factor threshold: collateral `200/3` ETH
(200000 USD), debt `100/3` ETH, health factor 1.6. -/
def userAbove : RawUser :=
  RawUser.mk (RawField.val addrF) (RawField.val [simpleReserve (200 / 3) (100 / 3) 8000])

/-- Totals reached by the loop on `userAbove` at ETH price 3000. -/
def tAbove : Totals :=
  Totals.mk (200 / 3) (100 / 3) (160 / 3)
    [CollateralAsset.mk unknownSymbol (200 / 3) (200 / 3) 200000 (4 / 5)]
    [BorrowAsset.mk unknownSymbol (100 / 3) (100 / 3) 100000]

/-!
Helper lemmas shared by the claim theorems.
-/

/-- A fold in the `Option` monad preserves any invariant its step preserves. -/
theorem foldlM_option_invariant {α β : Type} (f : β → α → Option β) (P : β → Prop)
    (hstep : ∀ b a b', P b → f b a = some b' → P b') :
    ∀ (l : List α) (b b' : β), P b → l.foldlM f b = some b' → P b'
  | [], b, b', hb, h => by
      simp only [List.foldlM_nil, Option.pure_def, Option.some.injEq] at h
      exact h ▸ hb
  | a :: l, b, b', hb, h => by
      simp only [List.foldlM_cons] at h
      cases hfa : f b a with
      | none => rw [hfa] at h; exact absurd h (by simp)
      | some b2 =>
          rw [hfa] at h
          exact foldlM_option_invariant f P hstep l b2 b' (hstep b a b2 hb hfa) h

/-- A fold in the `Option` monad fails as soon as one list element fails at
every accumulator. -/
theorem foldlM_option_fails {α β : Type} (f : β → α → Option β) (a : α) :
    ∀ (l : List α) (b : β), a ∈ l → (∀ b0, f b0 a = none) → l.foldlM f b = none
  | [], _, ha, _ => absurd ha (List.not_mem_nil a)
  | x :: l, b, ha, hfail => by
      simp only [List.foldlM_cons]
      rcases List.mem_cons.mp ha with rfl | hmem
      · rw [hfail b]; rfl
      · cases hfx : f b x with
        | none => rfl
        | some b2 => exact foldlM_option_fails f a l b2 hmem hfail

/-- A fold in the `Option` monad whose every step is the identity returns its
start value. -/
theorem foldlM_option_id {α β : Type} (f : β → α → Option β) :
    ∀ (l : List α) (b : β), (∀ a ∈ l, ∀ b0, f b0 a = some b0) →
      l.foldlM f b = some b
  | [], b, _ => rfl
  | x :: l, b, hid => by
      simp only [List.foldlM_cons, hid x (List.mem_cons_self x l) b, Option.some_bind]
      exact foldlM_option_id f l b (fun a ha b0 => hid a (List.mem_cons_of_mem x ha) b0)

/-- The accumulator form of the user loop is the `filterMap` of its body. -/
theorem process_user_data_foldl_eq (p : ℚ) :
    ∀ (users : List RawUser) (acc : List Position),
      users.foldl
        (fun positions u =>
          match processOne p u with
          | some q => positions ++ [q]
          | none => positions)
        acc = acc ++ users.filterMap (processOne p)
  | [], acc => by simp
  | u :: us, acc => by
      simp only [List.foldl_cons, List.filterMap_cons]
      cases h : processOne p u with
      | none => rw [process_user_data_foldl_eq p us acc]
      | some q => rw [process_user_data_foldl_eq p us (acc ++ [q])]; simp

/-- `process_user_data` is the order-preserving `filterMap` of `processOne`. -/
theorem process_user_data_eq_filterMap (users : List RawUser) (p : ℚ) :
    process_user_data users p = users.filterMap (processOne p) := by
  unfold process_user_data
  rw [process_user_data_foldl_eq p users []]
  simp

/-- One loop iteration only ever adds a strictly positive collateral value
and a strictly positive debt value to the running totals. -/
theorem stepReserve_totals_mono (p : ℚ) (acc : Totals) (r : RawReserve) (t : Totals)
    (h : stepReserve p acc r = some t) :
    acc.totalDebtEth ≤ t.totalDebtEth ∧ acc.totalCollateralEth ≤ t.totalCollateralEth := by
  unfold stepReserve at h
  cases hd : processReserve r with
  | none => rw [hd] at h; exact absurd h (by simp)
  | some d =>
      rw [hd] at h
      simp only [Option.bind_eq_bind, Option.some_bind, Option.pure_def, Option.some.injEq] at h
      subst h
      split_ifs with h1 h2 h2 <;> constructor <;> (try dsimp only) <;> linarith

/-- Every state reached by the reserve loop has non-negative totals. -/
theorem aggregate_nonneg (p : ℚ) (rs : List RawReserve) (t : Totals)
    (h : aggregate p rs = some t) :
    0 ≤ t.totalDebtEth ∧ 0 ≤ t.totalCollateralEth := by
  refine foldlM_option_invariant (stepReserve p)
    (fun b => 0 ≤ b.totalDebtEth ∧ 0 ≤ b.totalCollateralEth)
    (fun b a b' hb hstep => ?_) rs emptyTotals t (by constructor <;> norm_num [emptyTotals]) h
  have := stepReserve_totals_mono p b a b' hstep
  exact ⟨le_trans hb.1 this.1, le_trans hb.2 this.2⟩

theorem stepReserve_sum_invariant (p : ℚ) (acc : Totals) (r : RawReserve) (t : Totals)
    (hacc : totalsSumInvariant acc) (h : stepReserve p acc r = some t) :
    totalsSumInvariant t := by
  obtain ⟨hw, hv⟩ := hacc
  unfold stepReserve at h
  cases hd : processReserve r with
  | none => rw [hd] at h; exact absurd h (by simp)
  | some d =>
      rw [hd] at h
      simp only [Option.bind_eq_bind, Option.some_bind, Option.pure_def, Option.some.injEq] at h
      subst h
      unfold totalsSumInvariant collateralWeightedSum collateralValueSum at *
      split_ifs with h1 h2 h2 <;> constructor <;> (try dsimp only) <;>
        (try simp [hw, hv])

theorem aggregate_sum_invariant (p : ℚ) (rs : List RawReserve) (t : Totals)
    (h : aggregate p rs = some t) : totalsSumInvariant t := by
  refine foldlM_option_invariant (stepReserve p) totalsSumInvariant
    (fun b a b' hb hstep => stepReserve_sum_invariant p b a b' hb hstep)
    rs emptyTotals t ?_ h
  constructor <;> rfl

/-- Decoding a reserve whose nested `reserve` object is unusable raises
(`.get` on a non-dict). -/
theorem processReserve_malformed (r : RawReserve) (hm : r.reserve = RawField.malformed) :
    processReserve r = none := by
  unfold processReserve
  rw [hm]
  rfl

/-- A loop iteration whose reserve decoding raises aborts the whole user. -/
theorem stepReserve_none (p : ℚ) (r : RawReserve) (h : processReserve r = none) :
    ∀ acc, stepReserve p acc r = none := by
  intro acc
  unfold stepReserve
  rw [h]
  rfl

/-- The reserve loop fails as soon as any of its entries fails to decode. -/
theorem aggregate_fails (p : ℚ) (rs : List RawReserve) (r : RawReserve)
    (hr : r ∈ rs) (h : processReserve r = none) : aggregate p rs = none :=
  foldlM_option_fails (stepReserve p) r rs emptyTotals hr (stepReserve_none p r h)

/-- A user whose reserve loop raises produces no position. -/
theorem processOne_none_of_aggregate_none (p : ℚ) (u : RawUser) (rs : List RawReserve)
    (hrs : u.reserves = RawField.val rs) (h : aggregate p rs = none) :
    processOne p u = none := by
  unfold processOne
  rw [hrs]
  simp only [Option.bind_eq_bind, Option.some_bind]
  rw [h]
  rfl

/-- A loop iteration over a reserve that decodes with price zero leaves the
accumulator untouched: it contributes nothing to collateral or debt. -/
theorem stepReserve_zero_price (p : ℚ) (r : RawReserve) (d : ReserveData)
    (hd : processReserve r = some d) (hz : d.priceInEth = 0) :
    ∀ acc, stepReserve p acc r = some acc := by
  intro acc
  unfold stepReserve
  rw [hd]
  simp [hz]

/-- Replicating one producing user replicates its position. -/
theorem process_user_data_replicate (p : ℚ) (u : RawUser) (q : Position)
    (h : processOne p u = some q) :
    ∀ n, process_user_data (List.replicate n u) p = List.replicate n q := by
  intro n
  rw [process_user_data_eq_filterMap]
  induction n with
  | zero => rfl
  | succ n ih => simp only [List.replicate_succ, List.filterMap_cons, h, ih]

/-!
Evaluation helpers: symbolic computation of concrete runs of the pipeline.
-/

/-- Floor of a rational, characterised by its defining inequalities. -/
theorem ratFloor_eq (x : ℚ) (z : ℤ) (h1 : (z : ℚ) ≤ x) (h2 : x < z + 1) :
    Rat.floor x = z := by
  have hz : z ≤ Rat.floor x := Rat.le_floor.mpr h1
  have hfx : (Rat.floor x : ℚ) ≤ x := Rat.le_floor.mp le_rfl
  have hlt : (Rat.floor x : ℚ) < ((z + 1 : ℤ) : ℚ) := lt_of_le_of_lt hfx (by push_cast; exact h2)
  have : Rat.floor x < z + 1 := by exact_mod_cast hlt
  omega

/-- Value of `pyRound` when the scaled argument sits strictly below the next
half-integer (covers every exact value in this file, ties included when the
fraction is zero). -/
theorem pyRound_lowhalf (x : ℚ) (n : ℕ) (z : ℤ)
    (h1 : (z : ℚ) ≤ x * 10 ^ n) (h2 : x * 10 ^ n < z + 1 / 2) :
    pyRound x n = (z : ℚ) / 10 ^ n := by
  have hz : Rat.floor (x * 10 ^ n) = z := ratFloor_eq _ z h1 (by linarith)
  unfold pyRound roundHalfEven
  rw [hz]
  have hlt : x * 10 ^ n - (z : ℚ) < 1 / 2 := by linarith
  rw [if_pos hlt]

/-- Decoding of a `simpleReserve` entry: price 1, threshold scaled by 1e4. -/
theorem processReserve_simple (bal debt thr : ℚ) :
    processReserve (simpleReserve bal debt thr) =
      some (ReserveData.mk unknownSymbol 1 (thr / 10000) bal debt) := by
  unfold processReserve simpleReserve simpleInfo
  norm_num [parseField]

/-- Reserve loop over a single well-formed reserve with positive balance and
positive debt. -/
theorem aggregate_single (p bal debt thr : ℚ) (hb : 0 < bal) (hd : 0 < debt) :
    aggregate p [simpleReserve bal debt thr] =
      some (Totals.mk bal debt (bal * (thr / 10000))
        [CollateralAsset.mk unknownSymbol bal bal (bal * p) (thr / 10000)]
        [BorrowAsset.mk unknownSymbol debt debt (debt * p)]) := by
  simp [aggregate, List.foldlM, stepReserve, processReserve_simple, emptyTotals, hb, hd]

/-- The tail of the user-loop body once the reserve loop has produced totals
with nonzero debt: the filters and the emitted record, spelled out. -/
theorem processOne_val (p : ℚ) (addr : String) (rs : List RawReserve) (t : Totals)
    (h : aggregate p rs = some t) (hd : t.totalDebtEth ≠ 0) :
    processOne p (RawUser.mk (RawField.val addr) (RawField.val rs)) =
      (if (t.totalCollateralEth * avgLiq t) / t.totalDebtEth > MAX_HEALTH_FACTOR then none
       else if t.totalCollateralEth * p < MIN_COLLATERAL_USD then none
       else some (Position.mk addr
         (pyRound ((t.totalCollateralEth * avgLiq t) / t.totalDebtEth) 4)
         (pyRound (t.totalCollateralEth * p) 2)
         (pyRound (match pyMaxBy (fun a => a.valueUsd) t.collateralAssets with
           | some a => a.amount
           | none => 0) 6)
         (match pyMaxBy (fun a => a.valueUsd) t.collateralAssets with
           | some a => a.symbol
           | none => unknownSymbol)
         (pyRound (t.totalDebtEth * p) 2)
         (match pyMaxBy (fun a => a.valueUsd) t.borrowAssets with
           | some a => a.symbol
           | none => unknownSymbol)
         (pyRound (match pyMaxBy (fun a => a.valueUsd) t.collateralAssets with
           | some a => a.liqThreshold
           | none => 8 / 10) 4)
         t.collateralAssets t.borrowAssets)) := by
  unfold processOne
  simp only [Option.bind_eq_bind, Option.some_bind, Option.pure_def, h, if_neg hd,
    calculate_health_factor]

/-- The `continue` at line 192: totals with zero debt yield no position. -/
theorem processOne_none_of_zero_debt (p : ℚ) (u : RawUser) (rs : List RawReserve) (t : Totals)
    (hrs : u.reserves = RawField.val rs) (h : aggregate p rs = some t)
    (hd : t.totalDebtEth = 0) : processOne p u = none := by
  unfold processOne
  rw [hrs]
  simp only [Option.bind_eq_bind, Option.some_bind, h, if_pos hd]

theorem aggregate_userA : aggregate 3000 [simpleReserve 100 60 8000] = some tA := by
  simp only [aggregate_single 3000 100 60 8000 (by norm_num) (by norm_num)]
  norm_num [tA, caHundred, baSixty, Totals.mk.injEq, CollateralAsset.mk.injEq,
    BorrowAsset.mk.injEq]

theorem aggregate_userB : aggregate 3000 [simpleReserve 100 80 8000] = some tB := by
  simp only [aggregate_single 3000 100 80 8000 (by norm_num) (by norm_num)]
  norm_num [tB, caHundred, baEighty, Totals.mk.injEq, CollateralAsset.mk.injEq,
    BorrowAsset.mk.injEq]

theorem processOne_userA : processOne 3000 userA = some posA := by
  have h := processOne_val 3000 addrA [simpleReserve 100 60 8000] tA aggregate_userA
    (by norm_num [tA])
  have havg : avgLiq tA = 4 / 5 := by norm_num [avgLiq, tA]
  rw [show userA = RawUser.mk (RawField.val addrA) (RawField.val [simpleReserve 100 60 8000])
    from rfl, h, havg]
  rw [show (pyMaxBy (fun a => a.valueUsd) tA.collateralAssets) = some caHundred from rfl]
  rw [show (pyMaxBy (fun a => a.valueUsd) tA.borrowAssets) = some baSixty from rfl]
  norm_num [tA, caHundred, baSixty, posA, MAX_HEALTH_FACTOR, MIN_COLLATERAL_USD,
    Position.mk.injEq,
    pyRound_lowhalf (4 / 3) 4 13333 (by norm_num) (by norm_num),
    pyRound_lowhalf 300000 2 30000000 (by norm_num) (by norm_num),
    pyRound_lowhalf 100 6 100000000 (by norm_num) (by norm_num),
    pyRound_lowhalf 180000 2 18000000 (by norm_num) (by norm_num),
    pyRound_lowhalf (4 / 5) 4 8000 (by norm_num) (by norm_num)]

theorem processOne_userB : processOne 3000 userB = some posB := by
  have h := processOne_val 3000 addrB [simpleReserve 100 80 8000] tB aggregate_userB
    (by norm_num [tB])
  have havg : avgLiq tB = 4 / 5 := by norm_num [avgLiq, tB]
  rw [show userB = RawUser.mk (RawField.val addrB) (RawField.val [simpleReserve 100 80 8000])
    from rfl, h, havg]
  rw [show (pyMaxBy (fun a => a.valueUsd) tB.collateralAssets) = some caHundred from rfl]
  rw [show (pyMaxBy (fun a => a.valueUsd) tB.borrowAssets) = some baEighty from rfl]
  norm_num [tB, caHundred, baEighty, posB, MAX_HEALTH_FACTOR, MIN_COLLATERAL_USD,
    Position.mk.injEq,
    pyRound_lowhalf 1 4 10000 (by norm_num) (by norm_num),
    pyRound_lowhalf 300000 2 30000000 (by norm_num) (by norm_num),
    pyRound_lowhalf 100 6 100000000 (by norm_num) (by norm_num),
    pyRound_lowhalf 240000 2 24000000 (by norm_num) (by norm_num),
    pyRound_lowhalf (4 / 5) 4 8000 (by norm_num) (by norm_num)]

theorem aggregate_userBoundary :
    aggregate 3000 [simpleReserve (200 / 3) (320 / 9) 8000] = some tBoundary := by
  simp only [aggregate_single 3000 (200 / 3) (320 / 9) 8000 (by norm_num) (by norm_num)]
  norm_num [tBoundary, Totals.mk.injEq, CollateralAsset.mk.injEq, BorrowAsset.mk.injEq]

theorem aggregate_userZeroDebt :
    aggregate 3000 [simpleReserve 100 0 8000] = some tZeroDebt := by
  simp only [aggregate, List.foldlM, stepReserve, processReserve_simple, Option.bind_eq_bind,
    Option.some_bind, Option.pure_def, emptyTotals]
  norm_num [tZeroDebt, caHundred, Totals.mk.injEq, CollateralAsset.mk.injEq]

theorem aggregate_rsEqual : aggregate 3000 rsEqual = some tEqual := by
  simp only [rsEqual, aggregate, List.foldlM, stepReserve, processReserve_simple,
    Option.bind_eq_bind, Option.some_bind, Option.pure_def, emptyTotals]
  norm_num [tEqual, Totals.mk.injEq, CollateralAsset.mk.injEq, BorrowAsset.mk.injEq]

theorem aggregate_rsMixed : aggregate 3000 rsMixed = some tMixed := by
  simp only [rsMixed, aggregate, List.foldlM, stepReserve, processReserve_simple,
    Option.bind_eq_bind, Option.some_bind, Option.pure_def, emptyTotals]
  norm_num [tMixed, Totals.mk.injEq, CollateralAsset.mk.injEq, BorrowAsset.mk.injEq]

theorem processOne_userMixed : processOne 3000 userMixed = some posMixed := by
  have h := processOne_val 3000 addrE rsMixed tMixed aggregate_rsMixed (by norm_num [tMixed])
  have havg : avgLiq tMixed = 7 / 10 := by norm_num [avgLiq, tMixed]
  rw [show userMixed = RawUser.mk (RawField.val addrE) (RawField.val rsMixed) from rfl, h, havg]
  rw [show (pyMaxBy (fun a => a.valueUsd) tMixed.collateralAssets) =
    some (CollateralAsset.mk unknownSymbol 200 200 600000 (4 / 5)) from rfl]
  rw [show (pyMaxBy (fun a => a.valueUsd) tMixed.borrowAssets) =
    some (BorrowAsset.mk unknownSymbol 200 200 600000) from rfl]
  norm_num [tMixed, posMixed, MAX_HEALTH_FACTOR, MIN_COLLATERAL_USD, Position.mk.injEq,
    pyRound_lowhalf (21 / 20) 4 10500 (by norm_num) (by norm_num),
    pyRound_lowhalf 900000 2 90000000 (by norm_num) (by norm_num),
    pyRound_lowhalf 200 6 200000000 (by norm_num) (by norm_num),
    pyRound_lowhalf 600000 2 60000000 (by norm_num) (by norm_num),
    pyRound_lowhalf (4 / 5) 4 8000 (by norm_num) (by norm_num)]

theorem processReserve_rNoPrice : processReserve rNoPrice = some dNoPrice := by
  unfold processReserve rNoPrice infoNoPrice
  norm_num [parseField, dNoPrice, ReserveData.mk.injEq]

/-- Value of `calculate_health_factor` on nonzero debt. -/
theorem calculate_health_factor_ne_zero (c d lt : ℚ) (hd : d ≠ 0) :
    calculate_health_factor c d lt = PyFloat.finite ((c * lt) / d) := by
  unfold calculate_health_factor
  rw [if_neg hd]

theorem aggregate_userAbove :
    aggregate 3000 [simpleReserve (200 / 3) (100 / 3) 8000] = some tAbove := by
  simp only [aggregate_single 3000 (200 / 3) (100 / 3) 8000 (by norm_num) (by norm_num)]
  norm_num [tAbove, Totals.mk.injEq, CollateralAsset.mk.injEq, BorrowAsset.mk.injEq]

/-- A reply other than the malformed envelope always yields a document. -/
theorem fetch_chain_data_ok (chain : String) (reply : GraphQLReply) (p : ℚ)
    (h : reply ≠ GraphQLReply.malformedData) :
    ∃ doc, fetch_chain_data chain reply p = Except.ok doc := by
  cases reply with
  | failed => exact ⟨errorDoc chain, rfl⟩
  | malformedData => exact absurd rfl h
  | ok d => exact ⟨successDoc chain d p, rfl⟩

/-- Unfolding of the chain loop on a chain whose fetch yields a document. -/
theorem runChains_cons_ok (replies : String → GraphQLReply) (p : ℚ) (c : String)
    (cs : List String) (doc : ChainDoc)
    (hdoc : fetch_chain_data c (replies c) p = Except.ok doc) :
    runChains replies p (c :: cs) = (c, doc) :: runChains replies p cs := by
  show (match fetch_chain_data c (replies c) p with
    | Except.error _ => []
    | Except.ok doc => (c, doc) :: runChains replies p cs) = _
  rw [hdoc]

/-- The chain loop stops at the first malformed envelope: no document for
that chain nor for any later one. -/
theorem runChains_crash (replies : String → GraphQLReply) (p : ℚ) (c : String)
    (l : List String) (hc : replies c = GraphQLReply.malformedData) :
    runChains replies p (c :: l) = [] := by
  show (match fetch_chain_data c (replies c) p with
    | Except.error _ => []
    | Except.ok doc => (c, doc) :: runChains replies p l) = []
  rw [hc]
  rfl

/-- Over crash-free chains the loop emits one document per chain, each
determined by that chain's own reply. -/
theorem runChains_no_crash (replies : String → GraphQLReply) (p : ℚ) :
    ∀ cs : List String, (∀ c ∈ cs, replies c ≠ GraphQLReply.malformedData) →
      (runChains replies p cs).map Prod.fst = cs ∧
      ∀ c doc, (c, doc) ∈ runChains replies p cs →
        fetch_chain_data c (replies c) p = Except.ok doc
  | [], _ => ⟨rfl, fun c doc h => absurd h (List.not_mem_nil _)⟩
  | c :: cs, hall => by
      obtain ⟨doc, hdoc⟩ := fetch_chain_data_ok c (replies c) p
        (hall c (List.mem_cons_self c cs))
      obtain ⟨ih1, ih2⟩ := runChains_no_crash replies p cs
        (fun c0 hc0 => hall c0 (List.mem_cons_of_mem c hc0))
      rw [runChains_cons_ok replies p c cs doc hdoc]
      refine ⟨by simp [ih1], ?_⟩
      intro c0 doc0 hmem
      rcases List.mem_cons.mp hmem with heq | hmem2
      · injection heq with h1 h2
        subst h1
        subst h2
        exact hdoc
      · exact ih2 c0 doc0 hmem2

/-- Over a crash-free prefix the chain loop is append-homomorphic. -/
theorem runChains_append_of_no_crash (replies : String → GraphQLReply) (p : ℚ) :
    ∀ l1 l2 : List String, (∀ c ∈ l1, replies c ≠ GraphQLReply.malformedData) →
      runChains replies p (l1 ++ l2) =
        runChains replies p l1 ++ runChains replies p l2
  | [], _, _ => rfl
  | c :: l1, l2, hall => by
      obtain ⟨doc, hdoc⟩ := fetch_chain_data_ok c (replies c) p
        (hall c (List.mem_cons_self c l1))
      rw [List.cons_append, runChains_cons_ok replies p c (l1 ++ l2) doc hdoc,
        runChains_cons_ok replies p c l1 doc hdoc,
        runChains_append_of_no_crash replies p l1 l2
          (fun c0 hc0 => hall c0 (List.mem_cons_of_mem c hc0)),
        List.cons_append]

/-!
Claim theorems.
-/

/-- C1 (amended): `process_user_data` emits positions in the relative input
order of the qualifying users — it is the `filterMap` of the per-user body
and distributes over list append — and no sort by health factor is applied;
the output is deterministic given the input order. -/
theorem process_user_data_preserves_input_order (users1 users2 : List RawUser) (p : ℚ) :
    process_user_data (users1 ++ users2) p =
      process_user_data users1 p ++ process_user_data users2 p ∧
    process_user_data users1 p = users1.filterMap (processOne p) := by
  refine ⟨?_, process_user_data_eq_filterMap users1 p⟩
  rw [process_user_data_eq_filterMap, process_user_data_eq_filterMap,
    process_user_data_eq_filterMap, List.filterMap_append]

/-- C1 counterexample: two qualifying borrowers arriving with health factors
`1.3333` then `1` are emitted in that order, so the output list is not
sorted ascending by health factor. -/
theorem process_user_data_not_sorted_cex :
    (process_user_data [userA, userB] 3000).map (fun q => q.healthFactor) =
      [13333 / 10000, 1] ∧ ¬ ((13333 : ℚ) / 10000 ≤ 1) := by
  constructor
  · rw [process_user_data_eq_filterMap]
    simp [List.filterMap_cons, processOne_userA, processOne_userB, posA, posB]
  · norm_num

/-- C2 (amended): no top-N truncation is applied anywhere — the output
length equals the number of qualifying users, however many there are. -/
theorem process_user_data_no_truncation (users : List RawUser) (p : ℚ) :
    (process_user_data users p).length =
      users.countP (fun u => (processOne p u).isSome) := by
  rw [process_user_data_eq_filterMap]
  induction users with
  | nil => rfl
  | cons u us ih =>
      rw [List.filterMap_cons, List.countP_cons]
      cases h : processOne p u
      · simp [h, ih]
      · simp [h, ih]

/-- C2 counterexample: 101 qualifying borrowers produce an output of length
101, exceeding the claimed `top_n = 100` bound. -/
theorem process_user_data_exceeds_top100_cex :
    (process_user_data (List.replicate 101 userA) 3000).length = 101 ∧
    100 < (process_user_data (List.replicate 101 userA) 3000).length := by
  have h := process_user_data_replicate 3000 userA posA processOne_userA 101
  rw [h]
  simp

/-- C3: a decoded borrower is retained iff health factor ≤ 1.5 and
collateral value ≥ 200000 USD and total debt > 0; both threshold
comparisons are inclusive. -/
theorem position_retained_iff_thresholds (u : RawUser) (p : ℚ) (rs : List RawReserve)
    (t : Totals) (addr : String) (hrs : u.reserves = RawField.val rs)
    (hagg : aggregate p rs = some t) (hid : u.id = RawField.val addr) :
    (processOne p u).isSome ↔
      (0 < t.totalDebtEth ∧
        (t.totalCollateralEth * avgLiq t) / t.totalDebtEth ≤ MAX_HEALTH_FACTOR ∧
        MIN_COLLATERAL_USD ≤ t.totalCollateralEth * p) := by
  obtain ⟨hdn, _⟩ := aggregate_nonneg p rs t hagg
  unfold processOne
  rw [hrs]
  simp only [Option.bind_eq_bind, Option.some_bind, hagg]
  by_cases hd : t.totalDebtEth = 0
  · rw [if_pos hd]
    simp [hd]
  · rw [if_neg hd]
    simp only [calculate_health_factor, if_neg hd]
    rw [hid]
    constructor
    · intro hs
      split_ifs at hs with h1 h2
      · simp at hs
      · simp at hs
      · exact ⟨lt_of_le_of_ne hdn (Ne.symm hd), not_lt.mp h1, not_lt.mp h2⟩
    · rintro ⟨h0, hle, hge⟩
      rw [if_neg (not_lt.mpr hle), if_neg (not_lt.mpr hge)]
      simp

/-- C3 witness: a borrower at health factor exactly 1.5 and collateral
exactly 200000 USD is retained; one at health factor 1.6 is excluded. -/
theorem position_retained_iff_thresholds_witness :
    (processOne 3000 userBoundary).isSome ∧ ¬ (processOne 3000 userAbove).isSome := by
  constructor
  · exact (position_retained_iff_thresholds userBoundary 3000
      [simpleReserve (200 / 3) (320 / 9) 8000] tBoundary addrC rfl
      aggregate_userBoundary rfl).mpr
      ⟨by norm_num [tBoundary], by norm_num [tBoundary, avgLiq, MAX_HEALTH_FACTOR],
        by norm_num [tBoundary, MIN_COLLATERAL_USD]⟩
  · intro hs
    have hcond := (position_retained_iff_thresholds userAbove 3000
      [simpleReserve (200 / 3) (100 / 3) 8000] tAbove addrF rfl
      aggregate_userAbove rfl).mp hs
    have h2 := hcond.2.1
    norm_num [tAbove, avgLiq, MAX_HEALTH_FACTOR] at h2

/-- C4: health factor is `(collateral × threshold) / debt` for nonzero debt,
infinite for zero debt, and a borrower whose totals carry zero debt yields
no position at all. -/
theorem health_factor_formula_and_zero_debt_excluded (c d lt p : ℚ) (u : RawUser)
    (rs : List RawReserve) (t : Totals) :
    (d ≠ 0 → calculate_health_factor c d lt = PyFloat.finite ((c * lt) / d)) ∧
    (calculate_health_factor c 0 lt = PyFloat.inf) ∧
    (u.reserves = RawField.val rs → aggregate p rs = some t → t.totalDebtEth = 0 →
      processOne p u = none) := by
  refine ⟨fun hd => calculate_health_factor_ne_zero c d lt hd, ?_, ?_⟩
  · unfold calculate_health_factor
    rw [if_pos rfl]
  · exact fun hrs hagg hd => processOne_none_of_zero_debt p u rs t hrs hagg hd

/-- C4 witness: the spec scenario — collateral 300000, threshold 0.8, debt
180000 gives health factor `4/3`; zero debt gives infinity; a concrete
zero-debt borrower is excluded. -/
theorem health_factor_formula_witness :
    calculate_health_factor 300000 180000 (4 / 5) = PyFloat.finite (4 / 3) ∧
    calculate_health_factor 300000 0 (4 / 5) = PyFloat.inf ∧
    processOne 3000 userZeroDebt = none := by
  obtain ⟨h1, h2, h3⟩ := health_factor_formula_and_zero_debt_excluded 300000 180000 (4 / 5)
    3000 userZeroDebt [simpleReserve 100 0 8000] tZeroDebt
  refine ⟨?_, h2, h3 rfl aggregate_userZeroDebt rfl⟩
  rw [h1 (by norm_num)]
  norm_num [PyFloat.finite.injEq]

/-- C5: when total collateral is positive, the average liquidation threshold
used for the health factor is the collateral-value-weighted average
`Σ(value_i × threshold_i) / Σ(value_i)`; when total collateral is zero it
falls back to exactly 0.8. -/
theorem weighted_avg_liq_threshold (p : ℚ) (rs : List RawReserve) (t : Totals)
    (h : aggregate p rs = some t) :
    (0 < t.totalCollateralEth →
      avgLiq t =
        collateralWeightedSum t.collateralAssets / collateralValueSum t.collateralAssets) ∧
    (t.totalCollateralEth = 0 → avgLiq t = 8 / 10) := by
  obtain ⟨hw, hv⟩ := aggregate_sum_invariant p rs t h
  constructor
  · intro hpos
    unfold avgLiq
    rw [if_pos hpos, hw, hv]
  · intro h0
    unfold avgLiq
    rw [if_neg (by rw [h0]; exact lt_irrefl 0)]

/-- C5 witness: two equal-value collateral assets with thresholds 0.80 and
0.85 combine to exactly 0.825. -/
theorem weighted_avg_liq_threshold_witness : avgLiq tEqual = 33 / 40 := by
  have h := (weighted_avg_liq_threshold 3000 rsEqual tEqual aggregate_rsEqual).1
    (by norm_num [tEqual])
  rw [h]
  norm_num [tEqual, collateralWeightedSum, collateralValueSum]

/-- C6 (amended): the persisted `liquidationThreshold` of every emitted
position is the liquidation threshold of the primary (largest-USD-value)
collateral asset, rounded to 4 places — not the weighted average used in
the health-factor computation. -/
theorem liquidation_threshold_is_primary_asset (p : ℚ) (u : RawUser) (q : Position)
    (h : processOne p u = some q) :
    q.liquidationThreshold =
      pyRound (match pyMaxBy (fun a => a.valueUsd) q.collateralAssets with
        | some a => a.liqThreshold
        | none => 8 / 10) 4 := by
  unfold processOne at h
  rcases hrs : u.reserves with _ | _ | rs <;> rw [hrs] at h <;>
    simp only [Option.bind_eq_bind, Option.some_bind, Option.none_bind] at h
  · rcases Option.bind_eq_some.mp h with ⟨t, hagg, h2⟩
    by_cases hd : t.totalDebtEth = 0
    · rw [if_pos hd] at h2
      exact absurd h2 (by simp)
    · rw [if_neg hd, calculate_health_factor_ne_zero _ _ _ hd] at h2
      dsimp only at h2
      by_cases h1 : (t.totalCollateralEth * avgLiq t) / t.totalDebtEth > MAX_HEALTH_FACTOR
      · rw [if_pos h1] at h2
        exact absurd h2 (by simp)
      · rw [if_neg h1] at h2
        by_cases h3 : t.totalCollateralEth * p < MIN_COLLATERAL_USD
        · rw [if_pos h3] at h2
          exact absurd h2 (by simp)
        · rw [if_neg h3] at h2
          rcases hid : u.id with _ | _ | addr <;> rw [hid] at h2
          · exact absurd h2 (by simp)
          · exact absurd h2 (by simp)
          · simp only [Option.pure_def, Option.some.injEq] at h2
            subst h2
            rfl
  · exact absurd h (by simp)
  · rcases Option.bind_eq_some.mp h with ⟨t, hagg, h2⟩
    by_cases hd : t.totalDebtEth = 0
    · rw [if_pos hd] at h2
      exact absurd h2 (by simp)
    · rw [if_neg hd, calculate_health_factor_ne_zero _ _ _ hd] at h2
      dsimp only at h2
      by_cases h1 : (t.totalCollateralEth * avgLiq t) / t.totalDebtEth > MAX_HEALTH_FACTOR
      · rw [if_pos h1] at h2
        exact absurd h2 (by simp)
      · rw [if_neg h1] at h2
        by_cases h3 : t.totalCollateralEth * p < MIN_COLLATERAL_USD
        · rw [if_pos h3] at h2
          exact absurd h2 (by simp)
        · rw [if_neg h3] at h2
          rcases hid : u.id with _ | _ | addr <;> rw [hid] at h2
          · exact absurd h2 (by simp)
          · exact absurd h2 (by simp)
          · simp only [Option.pure_def, Option.some.injEq] at h2
            subst h2
            rfl

/-- C6 witness: for the mixed-collateral borrower the persisted threshold is
the primary asset threshold 0.8, rounded to 4 places. -/
theorem liquidation_threshold_is_primary_asset_witness :
    posMixed.liquidationThreshold = pyRound (4 / 5) 4 := by
  have h := liquidation_threshold_is_primary_asset 3000 userMixed posMixed processOne_userMixed
  rw [show (pyMaxBy (fun a => a.valueUsd) posMixed.collateralAssets) =
    some (CollateralAsset.mk unknownSymbol 200 200 600000 (4 / 5)) from rfl] at h
  exact h

/-- C6 counterexample: a borrower with 200 ETH at threshold 0.8 and 100 ETH
at threshold 0.5 has weighted average 0.7, yet the persisted record carries
0.8 (the primary asset threshold), so the claim fails. -/
theorem liquidation_threshold_not_weighted_avg_cex :
    (process_user_data [userMixed] 3000).map (fun q => q.liquidationThreshold) = [4 / 5] ∧
    aggregate 3000 rsMixed = some tMixed ∧ avgLiq tMixed = 7 / 10 ∧
    ((4 : ℚ) / 5) ≠ 7 / 10 := by
  refine ⟨?_, aggregate_rsMixed, by norm_num [avgLiq, tMixed], by norm_num⟩
  rw [process_user_data_eq_filterMap]
  simp [List.filterMap_cons, processOne_userMixed, posMixed]

/-- C7: a borrower record whose decoding raises (here: an unusable nested
`reserve` object) yields no position, and the surrounding loop's output is
exactly the output with that record removed. -/
theorem user_error_skipped (p : ℚ) (u : RawUser) (rs : List RawReserve) (r : RawReserve)
    (l1 l2 : List RawUser) (hrs : u.reserves = RawField.val rs) (hr : r ∈ rs)
    (hm : r.reserve = RawField.malformed) :
    processOne p u = none ∧
    process_user_data (l1 ++ u :: l2) p = process_user_data (l1 ++ l2) p := by
  have hnone : processOne p u = none :=
    processOne_none_of_aggregate_none p u rs hrs
      (aggregate_fails p rs r hr (processReserve_malformed r hm))
  refine ⟨hnone, ?_⟩
  rw [process_user_data_eq_filterMap, process_user_data_eq_filterMap,
    List.filterMap_append, List.filterMap_append, List.filterMap_cons, hnone]

/-- C7 witness: a malformed record between two good borrowers is dropped and
the rest of the scan is unaffected. -/
theorem user_error_skipped_witness :
    processOne 3000 badUser = none ∧
    process_user_data ([userA] ++ badUser :: [userB]) 3000 =
      process_user_data ([userA] ++ [userB]) 3000 :=
  user_error_skipped 3000 badUser [badReserve] badReserve [userA] [userB] rfl
    (List.mem_singleton.mpr rfl) rfl

/-- C8 (corrected): if no chain's reply is the malformed envelope, the loop
emits exactly one document per configured chain, each from its own reply,
with handled failures getting the error document (explicit error field,
empty positions); but the first malformed `data: null` envelope raises an
uncaught exception that aborts the loop, so that chain and every later
chain produce no document. -/
theorem documents_per_chain_until_crash (replies : String → GraphQLReply) (p : ℚ) :
    ((∀ c ∈ SUBGRAPH_CHAINS, replies c ≠ GraphQLReply.malformedData) →
      (runAll replies p).map Prod.fst = SUBGRAPH_CHAINS ∧
      (∀ c doc, (c, doc) ∈ runAll replies p →
        fetch_chain_data c (replies c) p = Except.ok doc) ∧
      (∀ c doc, (c, doc) ∈ runAll replies p → replies c = GraphQLReply.failed →
        doc.positions = [] ∧ doc.meta.error = some fetchFailureMessage)) ∧
    (∀ l1 c l2, (∀ c0 ∈ l1, replies c0 ≠ GraphQLReply.malformedData) →
      replies c = GraphQLReply.malformedData →
      runChains replies p (l1 ++ c :: l2) = runChains replies p l1) := by
  constructor
  · intro hall
    obtain ⟨h1, h2⟩ := runChains_no_crash replies p SUBGRAPH_CHAINS hall
    refine ⟨h1, h2, ?_⟩
    intro c doc hmem hfail
    have hok := h2 c doc hmem
    rw [hfail] at hok
    simp only [fetch_chain_data, Except.ok.injEq] at hok
    subst hok
    exact ⟨rfl, rfl⟩
  · intro l1 c l2 hpre hc
    rw [runChains_append_of_no_crash replies p l1 (c :: l2) hpre,
      runChains_crash replies p c l2 hc, List.append_nil]

/-- C8 witness: with one chain failing in the handled way every chain still
gets its document, while a malformed envelope on the second chain cuts the
run down to the documents of the chains before it. -/
theorem documents_per_chain_until_crash_witness :
    (runAll repliesOneFailure 3000).map Prod.fst = SUBGRAPH_CHAINS ∧
    runChains repliesOneMalformed 3000
      ([ethereumChain] ++ arbitrumChain :: [polygonChain, baseChain]) =
      runChains repliesOneMalformed 3000 [ethereumChain] := by
  constructor
  · exact ((documents_per_chain_until_crash repliesOneFailure 3000).1 (by decide)).1
  · exact (documents_per_chain_until_crash repliesOneMalformed 3000).2
      [ethereumChain] arbitrumChain [polygonChain, baseChain] (by decide) (by decide)

/-- C8 counterexample: with the second chain returning the malformed
`data: null` envelope, the run writes a document only for the first chain;
`polygon` is configured but gets no document, so neither is one document
emitted per chain nor are the remaining chains unaffected by one chain's
failure. -/
theorem malformed_data_aborts_run_cex :
    (runAll repliesOneMalformed 3000).map Prod.fst = [ethereumChain] ∧
    polygonChain ∈ SUBGRAPH_CHAINS ∧
    polygonChain ∉ (runAll repliesOneMalformed 3000).map Prod.fst := by
  refine ⟨?_, by decide, ?_⟩ <;> decide

/-- C9 (amended): every failure path of the price fetch returns the static
fallback 3000; a chain with a usable reply emits the success document,
whose metadata records the price used; failure documents omit the price
field. -/
theorem price_fallback_and_success_meta (o : PriceFetchOutcome) (chain : String)
    (d : GraphQLData) (p : ℚ) :
    (o = PriceFetchOutcome.error ∨ o = PriceFetchOutcome.okMissingEthereum ∨
        o = PriceFetchOutcome.ok none →
      fetch_eth_price o = 3000) ∧
    fetch_chain_data chain (GraphQLReply.ok d) p = Except.ok (successDoc chain d p) ∧
    (successDoc chain d p).meta.ethPriceUsd = some p := by
  refine ⟨?_, rfl, rfl⟩
  rintro (rfl | rfl | rfl) <;> rfl

/-- C9 witness: a failed price request yields 3000 and a successful chain
document records the price it was given. -/
theorem price_fallback_witness :
    fetch_eth_price PriceFetchOutcome.error = 3000 ∧
    (successDoc ethereumChain emptyData 3000).meta.ethPriceUsd = some 3000 := by
  obtain ⟨h1, _, h3⟩ := price_fallback_and_success_meta PriceFetchOutcome.error ethereumChain
    emptyData 3000
  exact ⟨h1 (Or.inl rfl), h3⟩

/-- C9 counterexample: the document emitted for a chain whose fetch failed
in the handled way carries no `ethPriceUsd` key at all, so the fallback
price used for the run is not recorded in every chain document. -/
theorem price_missing_from_failure_doc_cex :
    fetch_eth_price PriceFetchOutcome.error = 3000 ∧
    fetch_chain_data ethereumChain GraphQLReply.failed
      (fetch_eth_price PriceFetchOutcome.error) = Except.ok (errorDoc ethereumChain) ∧
    (errorDoc ethereumChain).meta.ethPriceUsd = none :=
  ⟨rfl, rfl, rfl⟩

/-- C10: a reserve that decodes with price zero (zero or missing
`priceInEth`) leaves the loop accumulator untouched regardless of its raw
balances, and a borrower all of whose reserves decode with price zero
aggregates to the empty totals (no exception) and is excluded for having
zero debt. -/
theorem zero_price_contributes_nothing (p : ℚ) (acc : Totals) (r : RawReserve)
    (d : ReserveData) (u : RawUser) (rs : List RawReserve)
    (hd : processReserve r = some d) (hz : d.priceInEth = 0)
    (hrs : u.reserves = RawField.val rs)
    (hall : ∀ r0 ∈ rs, ∃ d0, processReserve r0 = some d0 ∧ d0.priceInEth = 0) :
    stepReserve p acc r = some acc ∧
    aggregate p rs = some emptyTotals ∧
    processOne p u = none := by
  have hagg : aggregate p rs = some emptyTotals :=
    foldlM_option_id (stepReserve p) rs emptyTotals (fun a ha b0 => by
      obtain ⟨d0, hd0, hz0⟩ := hall a ha
      exact stepReserve_zero_price p a d0 hd0 hz0 b0)
  exact ⟨stepReserve_zero_price p r d hd hz acc, hagg,
    processOne_none_of_zero_debt p u rs emptyTotals hrs hagg rfl⟩

/-- C10 witness: a reserve with huge raw balances but no price object
contributes nothing, and a borrower holding only that reserve is silently
excluded. -/
theorem zero_price_contributes_nothing_witness :
    stepReserve 3000 emptyTotals rNoPrice = some emptyTotals ∧
    aggregate 3000 [rNoPrice] = some emptyTotals ∧
    processOne 3000 userNoPrice = none := by
  refine zero_price_contributes_nothing 3000 emptyTotals rNoPrice dNoPrice userNoPrice
    [rNoPrice] processReserve_rNoPrice rfl rfl ?_
  intro r0 hr0
  rw [List.mem_singleton.mp hr0]
  exact ⟨dNoPrice, processReserve_rNoPrice, rfl⟩

